import Mathlib

/-!
Verification development for the identity-provisioning gateway
(`gateway/app` in the repository sources).

The Python services are shallowly embedded as executable Lean functions:

* `gateway/app/services/rule_engine.py`   → `Gateway.calculate_attributes` and friends
* `gateway/app/services/provision_service.py` → `Gateway.execute_provisioning`,
  `Gateway.execute_rollback`, `Gateway.continue_after_approval`
* `gateway/app/services/workflow_service.py`  → `Gateway.record_decision`
* `gateway/app/services/reconciliation_service.py` → `Gateway.resolve_discrepancies`
* `gateway/app/core/memory_store.py`      → `Gateway.add_audit_log`
* `gateway/app/api/workflow.py`           → `Gateway.approve_workflow_by_email`

Conventions used throughout the embedding:

* Python dicts become association lists (`List (String × _)`); `dict.get`
  and `dict[k] = v` become `Gateway.assocGet?` / `Gateway.assocSet`.
* Connector / SMTP / database side effects become explicit behaviour
  functions (`ConnCall → Except String Unit`, stores `String → Option _`),
  and each function returns the trace of the external calls it made.
* `datetime.utcnow()` and `uuid.uuid4()` become explicit `now` / fresh-id
  parameters.
* A Python exception becomes `Except.error`.
-/

namespace Gateway

/-- Embedding of a Python/JSON runtime value as manipulated by the rule
engine and the condition evaluator (`rule_engine.py`).  `vFloat` keeps the
raw literal text; no claim depends on float arithmetic.  JSON arrays are
outside this embedding (no claim exercises a list-valued attribute or
condition). -/
inductive Value where
  | vNone : Value
  | vBool : Bool → Value
  | vInt : Int → Value
  | vFloat : String → Value
  | vStr : String → Value

/-- Python `==` on embedded values.  Python treats `True == 1` and
`False == 0` as true (bool is an int subclass); numeric equality across
`int`/`float` literals is not modelled (no claim exercises it). -/
def Value.beq : Value → Value → Bool
  | .vNone, .vNone => true
  | .vBool a, .vBool b => a == b
  | .vBool a, .vInt n => if a then n == 1 else n == 0
  | .vInt n, .vBool a => if a then n == 1 else n == 0
  | .vInt a, .vInt b => a == b
  | .vFloat a, .vFloat b => a == b
  | .vStr a, .vStr b => a == b
  | _, _ => false

/-- Python `str(value)` for the values above. -/
def pyStr : Value → String
  | .vNone => "None"
  | .vBool b => if b then "True" else "False"
  | .vInt n => toString n
  | .vFloat s => s
  | .vStr s => s

/-- Python `str.lower` (ASCII case folding, which covers every string the
sources produce). -/
def pyLower (s : String) : String :=
  ⟨s.data.map Char.toLower⟩

/-- Python `str.strip()` with no argument: remove leading and trailing
whitespace. -/
def pyTrim (s : String) : String :=
  ⟨((s.data.dropWhile Char.isWhitespace).reverse.dropWhile Char.isWhitespace).reverse⟩

/-- Association-list read, mirroring a Python dict lookup (`d.get(k)`
returns `None` when the key is absent, so callers that use the default
take `assocGet? l k = none` for absence). -/
def assocGet? {α : Type} (l : List (String × α)) (key : String) : Option α :=
  match l with
  | [] => none
  | p :: rest => if p.fst == key then some p.snd else assocGet? rest key

/-- Association-list write, mirroring `d[k] = v` on a Python dict. -/
def assocSet {α : Type} (l : List (String × α)) (key : String) (v : α) : List (String × α) :=
  match l with
  | [] => [(key, v)]
  | p :: rest => if p.fst == key then (key, v) :: rest else p :: assocSet rest key v

/-- The evaluation context of the rule engine: the Python dict `context`
in `RuleEngine.calculate_attributes`. -/
abbrev Ctx := List (String × Value)

/-- `context.get(key)` inside `_evaluate_conditions`: absent keys read as
Python `None`. -/
def ctxGet (ctx : Ctx) (key : String) : Value :=
  (assocGet? ctx key).getD .vNone

/-- Whether `pre` is a prefix of `l` (helper for the substring test). -/
def charsStartWith : List Char → List Char → Bool
  | [], _ => true
  | _ :: _, [] => false
  | a :: as, b :: bs => a == b && charsStartWith as bs

/-- Substring test on strings (Python `needle in hay`); the empty needle
is always contained. -/
def strContainsSub (hay needle : String) : Bool :=
  go hay.data
where
  go : List Char → Bool
  | [] => needle.data.isEmpty
  | c :: cs => charsStartWith needle.data (c :: cs) || go cs

/-- One decoded entry of a rule condition dict (`rule_engine.py`,
`_evaluate_conditions`): either a plain expected value or a
`{op: ..., value: ...}` object (a missing `op` defaults to `eq`, a missing
`value` to `None`, resolved at JSON decoding). -/
inductive CondSpec where
  | simple : Value → CondSpec
  | complex : String → Value → CondSpec

/-- Python `actual in value` as used by the `in` operator of
`_evaluate_conditions`: a substring test when the container is a string,
a raised `TypeError` when it is not a container (JSON arrays are outside
this embedding). -/
def pyMem (actual : Value) : Value → Except String Bool
  | .vStr s =>
    (match actual with
     | .vStr sa => .ok (strContainsSub s sa)
     | _ => .error "TypeError: in <string> requires string as left operand")
  | _ => .error "TypeError: argument of type is not iterable"

/-- Whether `actual` is Python `None`. -/
def valueIsNone : Value → Bool
  | .vNone => true
  | _ => false

/-- One key of `_evaluate_conditions` (`rule_engine.py` lines 197-222):
returns whether the condition passes; an unrecognised operator passes.
`Except.error` models a raised `TypeError` from the `in`/`contains`
operand checks. -/
def condHolds (context : Ctx) (key : String) : CondSpec → Except String Bool
  | .simple expected => .ok (Value.beq (ctxGet context key) expected)
  | .complex op value =>
    let actual := ctxGet context key
    if op == "eq" then .ok (Value.beq actual value)
    else if op == "ne" then .ok (!Value.beq actual value)
    else if op == "in" then pyMem actual value
    else if op == "contains" then
      (match value with
       | .vStr s => .ok (strContainsSub (pyStr actual) s)
       | _ => .error "TypeError: in <string> requires string as left operand")
    else if op == "exists" then .ok (!Value.beq (.vBool (valueIsNone actual)) value)
    else .ok true

/-- `RuleEngine._evaluate_conditions`: all keys must pass; evaluation
stops at the first failing key (the Python loop returns `False` there). -/
def evaluate_conditions (conditions : List (String × CondSpec)) (context : Ctx) :
    Except String Bool :=
  match conditions with
  | [] => .ok true
  | (key, c) :: rest =>
    match condHolds context key c with
    | .error e => .error e
    | .ok false => .ok false
    | .ok true => evaluate_conditions rest context

/-- Digit-string to `Nat` (helper for the Python `int(...)` embedding). -/
def digitsToNat? (cs : List Char) : Option Nat :=
  match cs with
  | [] => none
  | _ =>
    if cs.all Char.isDigit then
      some (cs.foldl (fun n c => n * 10 + (c.toNat - 48)) 0)
    else none

/-- Python `int(s)` on a string: surrounding whitespace and one sign are
accepted (digit-group underscores are not modelled). -/
def parsePyInt (s : String) : Option Int :=
  match (pyTrim s).data with
  | '-' :: rest => (digitsToNat? rest).map (fun n => -(n : Int))
  | '+' :: rest => (digitsToNat? rest).map (fun n => (n : Int))
  | t => (digitsToNat? t).map (fun n => (n : Int))

/-- Recogniser for strings Python `float(s)` accepts: optional sign, then
`inf`/`infinity`/`nan` or a decimal mantissa with optional exponent. -/
def isPyFloat (s : String) : Bool :=
  let t := (pyLower (pyTrim s)).data
  let t := match t with
    | '+' :: r => r
    | '-' :: r => r
    | r => r
  if t == "inf".toList || t == "infinity".toList || t == "nan".toList then true
  else
    let mantOk : List Char → Bool := fun cs =>
      match cs.splitOn '.' with
      | [a] => !a.isEmpty && a.all Char.isDigit
      | [a, b] => a.all Char.isDigit && b.all Char.isDigit && (!a.isEmpty || !b.isEmpty)
      | _ => false
    match t.splitOn 'e' with
    | [m] => mantOk m
    | [m, ex] =>
      let ex := match ex with
        | '+' :: r => r
        | '-' :: r => r
        | r => r
      mantOk m && !ex.isEmpty && ex.all Char.isDigit
    | _ => false

/-- Output coercion of `_execute_rule` (`rule_engine.py` lines 183-192):
the rendered string is tried as a boolean, then an integer, then a float,
else kept as a string. -/
def coerce_value (result : String) : Value :=
  let lower := pyLower result
  if lower == "true" then .vBool true
  else if lower == "false" then .vBool false
  else
    match parsePyInt result with
    | some n => .vInt n
    | none => if isPyFloat result then .vFloat result else .vStr result

/-- A rule as read by the engine (`app/models/rules.py` restricted to the
fields `calculate_attributes` reads).  `conditions` is the JSON-decoded
condition dict (`none` when the column is `NULL`/empty, which Python
treats as falsy).  `render` embeds the sandboxed Jinja rendering of
`expression` under the given context; it raises (`Except.error`) exactly
when the template evaluation raises. -/
structure Rule where
  id : String
  name : String
  target_system : String
  target_attribute : String
  priority : Int
  conditions : Option (List (String × CondSpec))
  render : Ctx → Except String String

/-- `RuleEngine._execute_rule` (lines 170-195): a false condition set
returns Python `None` without error; a failed render raises a
`ValueError` wrapping the cause; otherwise the rendered string is
coerced. -/
def execute_rule (rule : Rule) (context : Ctx) : Except String Value :=
  let rendered : Except String Value :=
    match rule.render context with
    | .ok s => .ok (coerce_value s)
    | .error e => .error ("Rule " ++ rule.name ++ " execution error: " ++ e)
  match rule.conditions with
  | some conds =>
    (match evaluate_conditions conds context with
     | .error e => .error e
     | .ok false => .ok .vNone
     | .ok true => rendered)
  | none => rendered

/-- The per-target loop body of `calculate_attributes` (lines 146-161):
each rule is executed against the accumulated context; a successful value
is written into the per-target result dict and into the context; a raised
rule is caught and skipped. -/
def applyRules (rules : List Rule) (context : Ctx) (results : Ctx) : Ctx × Ctx :=
  match rules with
  | [] => (results, context)
  | rule :: rest =>
    match execute_rule rule context with
    | .ok value =>
      applyRules rest (assocSet context rule.target_attribute value)
        (assocSet results rule.target_attribute value)
    | .error _ => applyRules rest context results

/-- Stable insertion into a priority-descending rule list (helper for the
embedding of `sorted(..., key=lambda r: r.priority, reverse=True)`). -/
def insertRule (a : Rule) : List Rule → List Rule
  | [] => [a]
  | b :: l => if b.priority ≤ a.priority then a :: b :: l else b :: insertRule a l

/-- Embedding of Python `sorted(rules, key=lambda r: r.priority,
reverse=True)`: a stable sort into descending priority order (ties keep
their original relative order, as Python guarantees). -/
def sortRules : List Rule → List Rule
  | [] => []
  | a :: l => insertRule a (sortRules l)

/-- The rules considered for one target (`calculate_attributes` lines
136-140): filter on `target_system`, then stable-sort by descending
priority. -/
def rulesFor (rules : List Rule) (target_name : String) : List Rule :=
  sortRules (rules.filter (fun r => r.target_system == target_name))

/-- The target loop of `calculate_attributes` (lines 131-161): each target
gets a fresh context built from the source attributes and an (initially
empty) result dict. -/
def calcLoop (attributes : Ctx) (rules : List Rule) :
    List String → List (String × Ctx) → List (String × Ctx)
  | [], results => results
  | target :: rest, results =>
    let pair := applyRules (rulesFor rules target) attributes []
    calcLoop attributes rules rest (assocSet results target pair.fst)

/-- `RuleEngine.calculate_attributes` (lines 109-168), with the applicable
rule set passed explicitly (the source loads it via
`_get_applicable_rules`) and target systems already resolved to their
string names (`target.value`). -/
def calculate_attributes (attributes : Ctx) (target_systems : List String)
    (rules : List Rule) : List (String × Ctx) :=
  calcLoop attributes rules target_systems []

/-- A rule whose execution raises in every context (the situation handled
by the `try/except` of `calculate_attributes` lines 147-161). -/
def alwaysFails (r : Rule) : Prop :=
  ∀ ctx : Ctx, ∃ e, execute_rule r ctx = .error e

/-- Descending-priority order between rules. -/
def ruleGE (a b : Rule) : Prop := b.priority ≤ a.priority

theorem assocGet?_assocSet_self {α : Type} (l : List (String × α)) (k : String) (v : α) :
    assocGet? (assocSet l k v) k = some v := by
  induction l with
  | nil => simp [assocGet?, assocSet]
  | cons p rest ih =>
    by_cases h : p.fst = k
    · simp [assocGet?, assocSet, h]
    · simp [assocGet?, assocSet, h, ih]

theorem assocGet?_assocSet_ne {α : Type} (l : List (String × α)) (k k2 : String) (v : α)
    (h : k ≠ k2) : assocGet? (assocSet l k v) k2 = assocGet? l k2 := by
  induction l with
  | nil => simp [assocGet?, assocSet, h]
  | cons p rest ih =>
    by_cases hp : p.fst = k
    · simp [assocGet?, assocSet, hp, h]
    · simp only [assocSet, beq_iff_eq, hp, if_false]
      by_cases hp2 : p.fst = k2 <;> simp [assocGet?, hp2, ih]

theorem mem_insertRule {x a : Rule} : ∀ {l : List Rule},
    x ∈ insertRule a l ↔ x = a ∨ x ∈ l := by
  intro l
  induction l with
  | nil => simp [insertRule]
  | cons b l ih =>
    by_cases h : b.priority ≤ a.priority
    · simp [insertRule, h]
    · simp [insertRule, h, ih]
      tauto

theorem pairwise_insertRule (a : Rule) {l : List Rule} (h : l.Pairwise ruleGE) :
    (insertRule a l).Pairwise ruleGE := by
  induction l with
  | nil => simp [insertRule, List.Pairwise]
  | cons b l ih =>
    rcases List.pairwise_cons.mp h with ⟨hb, hl⟩
    by_cases hba : b.priority ≤ a.priority
    · simp only [insertRule, hba, if_true]
      refine List.pairwise_cons.mpr ⟨?_, h⟩
      intro x hx
      rcases List.mem_cons.mp hx with rfl | hx
      · exact hba
      · exact le_trans (hb x hx) hba
    · simp only [insertRule, hba, if_false]
      refine List.pairwise_cons.mpr ⟨?_, ih hl⟩
      intro x hx
      rcases mem_insertRule.mp hx with rfl | hx
      · exact le_of_lt (lt_of_not_le hba)
      · exact hb x hx

theorem sortRules_pairwise (l : List Rule) : (sortRules l).Pairwise ruleGE := by
  induction l with
  | nil => simp [sortRules]
  | cons a l ih => exact pairwise_insertRule a ih

theorem insertRule_decompose (a : Rule) : ∀ l : List Rule,
    ∃ C1 C2, insertRule a l = C1 ++ a :: C2 ∧ l = C1 ++ C2 := by
  intro l
  induction l with
  | nil => exact ⟨[], [], rfl, rfl⟩
  | cons b l ih =>
    by_cases hba : b.priority ≤ a.priority
    · exact ⟨[], b :: l, by simp [insertRule, hba], rfl⟩
    · obtain ⟨C1, C2, h1, h2⟩ := ih
      exact ⟨b :: C1, C2, by simp [insertRule, hba, h1], by simp [h2]⟩

theorem insertRule_middle (a r : Rule) : ∀ C1 C2 : List Rule,
    (∀ x ∈ C2, x.priority ≤ r.priority) →
    ∃ D1 D2, insertRule a (C1 ++ r :: C2) = D1 ++ r :: D2
      ∧ insertRule a (C1 ++ C2) = D1 ++ D2 := by
  intro C1
  induction C1 with
  | nil =>
    intro C2 hC2
    by_cases hra : r.priority ≤ a.priority
    · refine ⟨[a], C2, by simp [insertRule, hra], ?_⟩
      cases C2 with
      | nil => simp [insertRule]
      | cons c C2 =>
        have hc : c.priority ≤ a.priority := le_trans (hC2 c (by simp)) hra
        simp [insertRule, hc]
    · exact ⟨[], insertRule a C2, by simp [insertRule, hra], by simp⟩
  | cons c C1 ih =>
    intro C2 hC2
    by_cases hca : c.priority ≤ a.priority
    · exact ⟨a :: c :: C1, C2, by simp [insertRule, hca], by simp [insertRule, hca]⟩
    · obtain ⟨D1, D2, h1, h2⟩ := ih C2 hC2
      exact ⟨c :: D1, D2, by simp [insertRule, hca, h1], by simp [insertRule, hca, h2]⟩

theorem sortRules_decompose (r : Rule) : ∀ A B : List Rule,
    ∃ C1 C2, sortRules (A ++ r :: B) = C1 ++ r :: C2
      ∧ sortRules (A ++ B) = C1 ++ C2 := by
  intro A
  induction A with
  | nil =>
    intro B
    obtain ⟨C1, C2, h1, h2⟩ := insertRule_decompose r (sortRules B)
    exact ⟨C1, C2, by simpa [sortRules] using h1, by simpa using h2⟩
  | cons a A ih =>
    intro B
    obtain ⟨C1, C2, h1, h2⟩ := ih B
    have hpw : (sortRules (A ++ r :: B)).Pairwise ruleGE := sortRules_pairwise _
    rw [h1] at hpw
    have hC2 : ∀ x ∈ C2, x.priority ≤ r.priority := by
      have hrc := (List.pairwise_append.mp hpw).2.1
      exact fun x hx => (List.pairwise_cons.mp hrc).1 x hx
    obtain ⟨D1, D2, g1, g2⟩ := insertRule_middle a r C1 C2 hC2
    refine ⟨D1, D2, ?_, ?_⟩
    · simpa [sortRules, h1] using g1
    · simpa [sortRules, h2] using g2

theorem applyRules_dropFail {r : Rule} (hfail : alwaysFails r) :
    ∀ (l1 l2 : List Rule) (ctx res : Ctx),
      applyRules (l1 ++ r :: l2) ctx res = applyRules (l1 ++ l2) ctx res := by
  intro l1
  induction l1 with
  | nil =>
    intro l2 ctx res
    obtain ⟨e, he⟩ := hfail ctx
    simp [applyRules, he]
  | cons a l1 ih =>
    intro l2 ctx res
    cases h : execute_rule a ctx with
    | ok v => simp [applyRules, h, ih]
    | error e => simp [applyRules, h, ih]

theorem applyRules_append : ∀ (rs1 rs2 : List Rule) (ctx res : Ctx),
    applyRules (rs1 ++ rs2) ctx res
      = applyRules rs2 (applyRules rs1 ctx res).snd (applyRules rs1 ctx res).fst := by
  intro rs1
  induction rs1 with
  | nil => intro rs2 ctx res; simp [applyRules]
  | cons a rs1 ih =>
    intro rs2 ctx res
    cases h : execute_rule a ctx with
    | ok v => simp [applyRules, h, ih]
    | error e => simp [applyRules, h, ih]

theorem calcLoop_get_of_not_mem (attributes : Ctx) (rules : List Rule) :
    ∀ (ts : List String) (res : List (String × Ctx)) (Y : String), Y ∉ ts →
      assocGet? (calcLoop attributes rules ts res) Y = assocGet? res Y := by
  intro ts
  induction ts with
  | nil => intro res Y _; rfl
  | cons t ts ih =>
    intro res Y h
    have ht : t ≠ Y := fun he => h (he ▸ List.mem_cons_self t ts)
    have hts : Y ∉ ts := fun hm => h (List.mem_cons_of_mem t hm)
    simp only [calcLoop]
    rw [ih _ _ hts, assocGet?_assocSet_ne _ _ _ _ ht]

theorem calcLoop_get_of_mem (attributes : Ctx) (rules : List Rule) :
    ∀ (ts : List String) (res : List (String × Ctx)) (Y : String), Y ∈ ts →
      assocGet? (calcLoop attributes rules ts res) Y
        = some (applyRules (rulesFor rules Y) attributes []).fst := by
  intro ts
  induction ts with
  | nil => intro res Y h; cases h
  | cons t ts ih =>
    intro res Y h
    by_cases hY : Y ∈ ts
    · simp only [calcLoop]; exact ih _ _ hY
    · have heq : Y = t := by
        rcases List.mem_cons.mp h with h1 | h2
        · exact h1
        · exact absurd h2 hY
      subst heq
      simp only [calcLoop]
      rw [calcLoop_get_of_not_mem _ _ _ _ _ hY, assocGet?_assocSet_self]

theorem calcLoop_congr (attributes : Ctx) {rulesA rulesB : List Rule}
    (h : ∀ Y, (applyRules (rulesFor rulesA Y) attributes []).fst
            = (applyRules (rulesFor rulesB Y) attributes []).fst) :
    ∀ (ts : List String) (res : List (String × Ctx)),
      calcLoop attributes rulesA ts res = calcLoop attributes rulesB ts res := by
  intro ts
  induction ts with
  | nil => intro res; rfl
  | cons t ts ih =>
    intro res
    simp only [calcLoop]
    rw [h t]
    exact ih _

/-- C3: in `RuleEngine.calculate_attributes` every target is computed from
a context initialised fresh from the source attributes: the entry for a
target `Y` equals the standalone evaluation of the `Y`-filtered,
priority-sorted rules (first conjunct), so it is identical whichever
rules other targets carry (second conjunct, rule sets agreeing on `Y`);
within one target the evaluation of later rules starts from the context
and result map accumulated by the earlier (higher-priority) rules, so a
value such as `uid` computed earlier is visible to a later rule such as
`mail` for the same target only (third conjunct). -/
theorem C3_rule_chaining_no_cross_target_leakage
    (attributes : Ctx) (targets : List String) (rules1 rules2 : List Rule) (Y : String)
    (rs1 rs2 : List Rule) (ctx res : Ctx)
    (hmem : Y ∈ targets)
    (hfilter : rules1.filter (fun r => r.target_system == Y)
             = rules2.filter (fun r => r.target_system == Y)) :
    assocGet? (calculate_attributes attributes targets rules1) Y
        = some (applyRules (rulesFor rules1 Y) attributes []).fst
    ∧ assocGet? (calculate_attributes attributes targets rules1) Y
        = assocGet? (calculate_attributes attributes targets rules2) Y
    ∧ applyRules (rs1 ++ rs2) ctx res
        = applyRules rs2 (applyRules rs1 ctx res).snd (applyRules rs1 ctx res).fst := by
  simp only [calculate_attributes]
  refine ⟨calcLoop_get_of_mem _ _ _ _ _ hmem, ?_, applyRules_append rs1 rs2 ctx res⟩
  rw [calcLoop_get_of_mem _ _ _ _ _ hmem, calcLoop_get_of_mem _ _ _ _ _ hmem]
  unfold rulesFor
  rw [hfilter]

/-- LDAP login rule for the witnesses: derives `uid` from the source
attributes (priority 100). -/
def ruleLdapUid : Rule :=
  { id := "rule-ldap-login", name := "LDAP Login Generator", target_system := "LDAP",
    target_attribute := "uid", priority := 100, conditions := none,
    render := fun ctx =>
      .ok (pyLower (pyStr (ctxGet ctx "firstname")) ++ "." ++ pyLower (pyStr (ctxGet ctx "lastname"))) }

/-- LDAP mail rule for the witnesses: reads the `uid` produced by the
higher-priority login rule (priority 80). -/
def ruleLdapMail : Rule :=
  { id := "rule-ldap-mail", name := "LDAP Email", target_system := "LDAP",
    target_attribute := "mail", priority := 80, conditions := none,
    render := fun ctx => .ok (pyStr (ctxGet ctx "uid") ++ "@example.com") }

/-- SQL rule for the witnesses: also reads `uid`, which must not be
visible from the LDAP target. -/
def ruleSqlUsername : Rule :=
  { id := "rule-sql-username", name := "SQL Username", target_system := "SQL",
    target_attribute := "username", priority := 100, conditions := none,
    render := fun ctx => .ok (pyStr (ctxGet ctx "uid")) }

/-- Source attributes used by the witnesses. -/
def attrsW : Ctx := [("firstname", Value.vStr "Jean"), ("lastname", Value.vStr "Dupont")]

/-- C3 witness: concrete run of `calculate_attributes` in which the LDAP
`mail` rule sees the `uid` derived by the higher-priority LDAP rule, the
SQL rule does not see it (it reads Python `None`), and the LDAP result is
unchanged when the SQL rule is removed. -/
theorem C3_rule_chaining_no_cross_target_leakage_witness :
    calculate_attributes attrsW ["LDAP", "SQL"] [ruleLdapUid, ruleLdapMail, ruleSqlUsername]
      = [("LDAP", [("uid", Value.vStr "jean.dupont"),
                   ("mail", Value.vStr "jean.dupont@example.com")]),
         ("SQL", [("username", Value.vStr "None")])]
    ∧ assocGet? (calculate_attributes attrsW ["LDAP", "SQL"]
          [ruleLdapUid, ruleLdapMail, ruleSqlUsername]) "LDAP"
        = some (applyRules (rulesFor [ruleLdapUid, ruleLdapMail, ruleSqlUsername] "LDAP") attrsW []).fst
    ∧ assocGet? (calculate_attributes attrsW ["LDAP", "SQL"]
          [ruleLdapUid, ruleLdapMail, ruleSqlUsername]) "LDAP"
        = assocGet? (calculate_attributes attrsW ["LDAP", "SQL"] [ruleLdapUid, ruleLdapMail]) "LDAP" :=
  ⟨by rfl,
   (C3_rule_chaining_no_cross_target_leakage attrsW ["LDAP", "SQL"]
      [ruleLdapUid, ruleLdapMail, ruleSqlUsername] [ruleLdapUid, ruleLdapMail] "LDAP"
      [] [] [] [] (by simp) rfl).1,
   (C3_rule_chaining_no_cross_target_leakage attrsW ["LDAP", "SQL"]
      [ruleLdapUid, ruleLdapMail, ruleSqlUsername] [ruleLdapUid, ruleLdapMail] "LDAP"
      [] [] [] [] (by simp) rfl).2.1⟩

/-- C4: a rule whose execution raises in every context contributes
nothing: `calculate_attributes` returns exactly what it returns with the
rule absent, for every source attribute map and target list — remaining
rules of the same target and all rules of other targets are unaffected,
and no exception escapes (the result is a plain map by construction). -/
theorem C4_failing_rule_is_isolated
    (attributes : Ctx) (targets : List String) (pre post : List Rule) (r : Rule)
    (hfail : alwaysFails r) :
    calculate_attributes attributes targets (pre ++ r :: post)
      = calculate_attributes attributes targets (pre ++ post) := by
  simp only [calculate_attributes]
  apply calcLoop_congr
  intro Y
  by_cases hY : r.target_system = Y
  · have hf1 : (pre ++ r :: post).filter (fun x => x.target_system == Y)
        = pre.filter (fun x => x.target_system == Y)
          ++ r :: post.filter (fun x => x.target_system == Y) := by
      simp [List.filter_append, List.filter_cons, hY]
    have hf2 : (pre ++ post).filter (fun x => x.target_system == Y)
        = pre.filter (fun x => x.target_system == Y)
          ++ post.filter (fun x => x.target_system == Y) := by
      simp [List.filter_append]
    obtain ⟨C1, C2, h1, h2⟩ := sortRules_decompose r
      (pre.filter (fun x => x.target_system == Y))
      (post.filter (fun x => x.target_system == Y))
    unfold rulesFor
    rw [hf1, hf2, h1, h2, applyRules_dropFail hfail]
  · have hf : (r.target_system == Y) = false := by simp [hY]
    unfold rulesFor
    simp [List.filter_append, List.filter_cons, hf]

/-- A rule whose render raises in every context (used by the C4
witness). -/
def ruleBoom : Rule :=
  { id := "rule-fail", name := "Always Failing", target_system := "LDAP",
    target_attribute := "broken", priority := 90, conditions := none,
    render := fun _ => .error "division by zero" }

/-- C4 witness: inserting the always-raising rule between the two LDAP
rules leaves the whole calculation unchanged. -/
theorem C4_failing_rule_is_isolated_witness :
    alwaysFails ruleBoom
    ∧ calculate_attributes attrsW ["LDAP", "SQL"] [ruleLdapUid, ruleBoom, ruleLdapMail]
        = calculate_attributes attrsW ["LDAP", "SQL"] [ruleLdapUid, ruleLdapMail] :=
  ⟨fun _ => ⟨_, rfl⟩,
   C4_failing_rule_is_isolated attrsW ["LDAP", "SQL"] [ruleLdapUid] [ruleLdapMail] ruleBoom
     (fun _ => ⟨_, rfl⟩)⟩

/-- Rule with a false condition for the C5 counterexample: applies only
when `department == "IT"`. -/
def ruleCondItTitle : Rule :=
  { id := "rule-title", name := "Title For IT", target_system := "LDAP",
    target_attribute := "title", priority := 50,
    conditions := some [("department", CondSpec.simple (Value.vStr "IT"))],
    render := fun _ => .ok "Engineer" }

/-- Source attributes on which the condition of `ruleCondItTitle` is
false. -/
def attrsHR : Ctx := [("department", Value.vStr "HR")]

/-- C5 counterexample: with a false condition the claim says the result
map contains no entry for the target attribute and the context is
unchanged; in the code `_execute_rule` returns Python `None` and
`calculate_attributes` (lines 148-151) stores that `None` in the result
map and in the context. -/
theorem C5_counterexample_condition_false_stores_none :
    evaluate_conditions [("department", CondSpec.simple (Value.vStr "IT"))] attrsHR = .ok false
    ∧ assocGet? (calculate_attributes attrsHR ["LDAP"] [ruleCondItTitle]) "LDAP"
        = some [("title", Value.vNone)]
    ∧ (applyRules [ruleCondItTitle] attrsHR []).snd
        = [("department", Value.vStr "HR"), ("title", Value.vNone)] :=
  ⟨by rfl, by rfl, by rfl⟩

/-- C5 amended: when a rule carries conditions that evaluate to false,
`_execute_rule` returns Python `None` without error, and
`calculate_attributes` records that `None` under the rule's
`target_attribute` in the per-target result map and adds it to the
context seen by the subsequent rules of that target (instead of leaving
map and context untouched). -/
theorem C5_condition_false_records_none
    (rule : Rule) (rest : List Rule) (context results : Ctx)
    (conds : List (String × CondSpec))
    (hc : rule.conditions = some conds)
    (hfalse : evaluate_conditions conds context = .ok false) :
    execute_rule rule context = .ok .vNone
    ∧ applyRules (rule :: rest) context results
        = applyRules rest (assocSet context rule.target_attribute .vNone)
            (assocSet results rule.target_attribute .vNone) := by
  have h1 : execute_rule rule context = .ok .vNone := by
    simp [execute_rule, hc, hfalse]
  exact ⟨h1, by simp [applyRules, h1]⟩

/-- C5 witness: the amended behaviour at the concrete rule and
attributes of the counterexample. -/
theorem C5_condition_false_records_none_witness :
    ruleCondItTitle.conditions = some [("department", CondSpec.simple (Value.vStr "IT"))]
    ∧ evaluate_conditions [("department", CondSpec.simple (Value.vStr "IT"))] attrsHR = .ok false
    ∧ execute_rule ruleCondItTitle attrsHR = .ok .vNone
    ∧ applyRules [ruleCondItTitle] attrsHR []
        = applyRules [] (assocSet attrsHR "title" .vNone) (assocSet [] "title" .vNone) :=
  ⟨rfl, rfl,
   (C5_condition_false_records_none ruleCondItTitle [] attrsHR []
      [("department", CondSpec.simple (Value.vStr "IT"))] rfl rfl).1,
   (C5_condition_false_records_none ruleCondItTitle [] attrsHR []
      [("department", CondSpec.simple (Value.vStr "IT"))] rfl rfl).2⟩

/-! ## Provisioning service (`provision_service.py`) -/

/-- `OperationType` from `app/models/provision.py`. -/
inductive OperationType where
  | create | update | delete | disable | enable

/-- `OperationStatus` from `app/models/provision.py`. -/
inductive OperationStatus where
  | pending | in_progress | awaiting_approval | approved | rejected
  | success | failed | rolled_back

/-- `ProvisioningOperation` (`app/models/provision.py`), restricted to
the fields `ProvisionService` reads; the JSON-string columns
`target_systems` and `calculated_attributes` are kept in decoded form
(`calculated_attributes = none` embeds the `NULL` column, on which
`json.loads` raises). -/
structure ProvisioningOperation where
  id : String
  operation_type : OperationType
  account_id : String
  status : OperationStatus
  target_systems : List String
  calculated_attributes : Option (List (String × Ctx))
  error_message : Option String
  updated_at : Nat
  completed_at : Option Nat

/-- One connector invocation (the `BaseConnector` account-lifecycle
surface used by `execute_provisioning` and `_execute_rollback`), tagged
with the target system the factory resolved. -/
inductive ConnCall where
  | createAccount (target account_id : String) (attributes : Ctx)
  | updateAccount (target account_id : String) (attributes : Ctx)
  | deleteAccount (target account_id : String)
  | disableAccount (target account_id : String)
  | enableAccount (target account_id : String)

/-- The connector call `execute_provisioning` issues for one target
(lines 102-134 of `provision_service.py`). -/
def opConnCall (t : OperationType) (target account_id : String) (attrs : Ctx) : ConnCall :=
  match t with
  | .create => .createAccount target account_id attrs
  | .update => .updateAccount target account_id attrs
  | .delete => .deleteAccount target account_id
  | .disable => .disableAccount target account_id
  | .enable => .enableAccount target account_id

/-- `RollbackAction` (`app/models/provision.py`); `action_data` is kept
decoded (`account_id` plus the optional `attributes` used by
`restore`). -/
structure RollbackAction where
  operation_id : String
  target_system : String
  action_type : String
  data_account_id : String
  data_attributes : Ctx
  executed : Bool
  executed_at : Option Nat

/-- The rollback action pushed after a successful CREATE
(`provision_service.py` lines 108-113). -/
def mkRollbackAction (op_id target account_id : String) : RollbackAction :=
  { operation_id := op_id, target_system := target, action_type := "delete",
    data_account_id := account_id, data_attributes := [],
    executed := false, executed_at := none }

/-- The connector call of one rollback action (`_execute_rollback` lines
202-208): `delete` deletes the account, `restore` re-creates it, any
other `action_type` makes no call. -/
def rollbackConnCall (action : RollbackAction) : Option ConnCall :=
  if action.action_type == "delete" then
    some (.deleteAccount action.target_system action.data_account_id)
  else if action.action_type == "restore" then
    some (.createAccount action.target_system action.data_account_id action.data_attributes)
  else none

/-- One iteration of `_execute_rollback` (lines 194-224): an already
executed action is skipped; otherwise the connector call is attempted
inside its own `try`, and only a non-raising iteration marks the action
executed (with a timestamp). -/
def rollbackStep (beh : ConnCall → Except String Unit) (now : Nat)
    (action : RollbackAction) : RollbackAction × List ConnCall :=
  if action.executed then (action, [])
  else
    match rollbackConnCall action with
    | none => ({ action with executed := true, executed_at := some now }, [])
    | some c =>
      match beh c with
      | .ok _ => ({ action with executed := true, executed_at := some now }, [c])
      | .error _ => (action, [c])

/-- `ProvisionService._execute_rollback` (lines 192-224): the actions are
processed in reverse order, each in its own `try` scope; the function
returns the action list with updated `executed` flags (the Python code
mutates the very objects, keeping their list order) and the trace of the
connector calls in execution order. -/
def execute_rollback (beh : ConnCall → Except String Unit) (now : Nat)
    (actions : List RollbackAction) : List RollbackAction × List ConnCall :=
  (actions.map (fun a => (rollbackStep beh now a).fst),
   (actions.reverse.map (fun a => (rollbackStep beh now a).snd)).flatten)

/-- The target loop of `execute_provisioning` (lines 91-146): issue the
operation call per target in order, record a `delete` rollback action
after each successful CREATE, and abort at the first raising call. -/
def provisionLoop (beh : ConnCall → Except String Unit) (op_type : OperationType)
    (op_id account_id : String) (calcAttrs : List (String × Ctx)) :
    List String → List RollbackAction → List ConnCall →
    Except String Unit × List RollbackAction × List ConnCall
  | [], actions, calls => (.ok (), actions, calls)
  | target :: rest, actions, calls =>
    let attrs := (assocGet? calcAttrs target).getD []
    let c := opConnCall op_type target account_id attrs
    match beh c with
    | .ok _ =>
      let actions2 := match op_type with
        | .create => actions ++ [mkRollbackAction op_id target account_id]
        | _ => actions
      provisionLoop beh op_type op_id account_id calcAttrs rest actions2 (calls ++ [c])
    | .error e => (.error e, actions, calls ++ [c])

/-- Result of one `execute_provisioning` run: the updated operation, the
rollback actions as left behind, the full connector-call trace (forward
calls then compensation calls) and the Python-level outcome
(`Except.error` embeds the re-raised exception of line 173). -/
structure ExecResult where
  operation : ProvisioningOperation
  rollback_actions : List RollbackAction
  calls : List ConnCall
  outcome : Except String Unit

/-- `ProvisionService.execute_provisioning` (lines 67-173) over an
explicit connector behaviour: on success every target was applied; on the
first failure the operation is marked FAILED with the captured error, the
recorded rollback actions are executed in reverse order, and the
exception is re-raised. -/
def execute_provisioning (beh : ConnCall → Except String Unit) (now : Nat)
    (operation : ProvisioningOperation)
    (calculated_attributes : List (String × Ctx)) : ExecResult :=
  let op1 := { operation with
    status := OperationStatus.in_progress,
    calculated_attributes := some calculated_attributes,
    updated_at := now }
  match provisionLoop beh operation.operation_type operation.id operation.account_id
      calculated_attributes operation.target_systems [] [] with
  | (.ok _, actions, calls) =>
    { operation := { op1 with status := .success, completed_at := some now },
      rollback_actions := actions, calls := calls, outcome := .ok () }
  | (.error e, actions, calls) =>
    let rb := execute_rollback beh now actions
    { operation := { op1 with status := .failed, error_message := some e },
      rollback_actions := rb.fst, calls := calls ++ rb.snd, outcome := .error e }

/-- `ProvisionService.continue_after_approval` (lines 262-271): look the
operation up, raise `ValueError` when it does not exist, then re-enter
`execute_provisioning` with the operation's stored (frozen)
`calculated_attributes` — there is no recomputation and no status
check. -/
def continue_after_approval (store : String → Option ProvisioningOperation)
    (beh : ConnCall → Except String Unit) (now : Nat)
    (operation_id : String) : Except String ExecResult :=
  match store operation_id with
  | none => .error ("Operation " ++ operation_id ++ " not found")
  | some operation =>
    match operation.calculated_attributes with
    | none => .error "TypeError: the JSON object must be str, not NoneType"
    | some calculated_attrs => .ok (execute_provisioning beh now operation calculated_attrs)

/-- The rollback actions `execute_provisioning` has recorded after the
given targets succeeded (one `delete` per target for CREATE, none for the
other operation types). -/
def recordedRollbackActions (op_type : OperationType) (op_id account_id : String)
    (targets : List String) : List RollbackAction :=
  match op_type with
  | .create => targets.map (fun t => mkRollbackAction op_id t account_id)
  | _ => []

theorem provisionLoop_cons_ok (beh : ConnCall → Except String Unit)
    (op_type : OperationType) (op_id account_id : String) (calcAttrs : List (String × Ctx))
    (p : String) (ts : List String) (actions : List RollbackAction) (calls : List ConnCall)
    (hp : beh (opConnCall op_type p account_id ((assocGet? calcAttrs p).getD [])) = .ok ()) :
    provisionLoop beh op_type op_id account_id calcAttrs (p :: ts) actions calls
      = provisionLoop beh op_type op_id account_id calcAttrs ts
          (actions ++ recordedRollbackActions op_type op_id account_id [p])
          (calls ++ [opConnCall op_type p account_id ((assocGet? calcAttrs p).getD [])]) := by
  cases op_type <;> simp [provisionLoop, hp, recordedRollbackActions]

theorem provisionLoop_cons_fail (beh : ConnCall → Except String Unit)
    (op_type : OperationType) (op_id account_id : String) (calcAttrs : List (String × Ctx))
    (p : String) (ts : List String) (actions : List RollbackAction) (calls : List ConnCall)
    (e : String)
    (hp : beh (opConnCall op_type p account_id ((assocGet? calcAttrs p).getD [])) = .error e) :
    provisionLoop beh op_type op_id account_id calcAttrs (p :: ts) actions calls
      = (.error e, actions,
         calls ++ [opConnCall op_type p account_id ((assocGet? calcAttrs p).getD [])]) := by
  cases op_type <;> simp [provisionLoop, hp]

theorem provisionLoop_ok_prefix (beh : ConnCall → Except String Unit)
    (op_type : OperationType) (op_id account_id : String) (calcAttrs : List (String × Ctx)) :
    ∀ (pre rest : List String) (actions : List RollbackAction) (calls : List ConnCall),
      (∀ p ∈ pre, beh (opConnCall op_type p account_id ((assocGet? calcAttrs p).getD [])) = .ok ()) →
      provisionLoop beh op_type op_id account_id calcAttrs (pre ++ rest) actions calls
        = provisionLoop beh op_type op_id account_id calcAttrs rest
            (actions ++ recordedRollbackActions op_type op_id account_id pre)
            (calls ++ pre.map (fun p => opConnCall op_type p account_id ((assocGet? calcAttrs p).getD []))) := by
  intro pre
  induction pre with
  | nil =>
    intro rest actions calls _
    cases op_type <;> simp [recordedRollbackActions]
  | cons p pre ih =>
    intro rest actions calls h
    have hp := h p (List.mem_cons_self _ _)
    have hrest := fun q hq => h q (List.mem_cons_of_mem _ hq)
    rw [List.cons_append,
      provisionLoop_cons_ok beh op_type op_id account_id calcAttrs p (pre ++ rest) actions calls hp,
      ih rest _ _ hrest]
    cases op_type <;> simp [recordedRollbackActions]

theorem rollbackStep_fresh_delete (beh : ConnCall → Except String Unit) (now : Nat)
    (a : RollbackAction) (h1 : a.executed = false) (h2 : a.action_type = "delete") :
    (rollbackStep beh now a).snd
      = [ConnCall.deleteAccount a.target_system a.data_account_id] := by
  cases hb : beh (ConnCall.deleteAccount a.target_system a.data_account_id) <;>
    simp [rollbackStep, rollbackConnCall, h1, h2, hb]

theorem execute_rollback_fresh_delete_trace (beh : ConnCall → Except String Unit) (now : Nat) :
    ∀ acts : List RollbackAction,
      (∀ a ∈ acts, a.executed = false ∧ a.action_type = "delete") →
      (execute_rollback beh now acts).snd
        = acts.reverse.map (fun a => ConnCall.deleteAccount a.target_system a.data_account_id) := by
  intro acts h
  simp only [execute_rollback]
  have aux : ∀ l : List RollbackAction,
      (∀ a ∈ l, (rollbackStep beh now a).snd
        = [ConnCall.deleteAccount a.target_system a.data_account_id]) →
      (l.map (fun a => (rollbackStep beh now a).snd)).flatten
        = l.map (fun a => ConnCall.deleteAccount a.target_system a.data_account_id) := by
    intro l
    induction l with
    | nil => intro _; rfl
    | cons a l ih =>
      intro hl
      rw [List.map_cons, List.map_cons, List.flatten_cons,
        hl a (List.mem_cons_self _ _), ih (fun b hb => hl b (List.mem_cons_of_mem _ hb))]
      rfl
  exact aux acts.reverse (fun a ha =>
    rollbackStep_fresh_delete beh now a (h a (List.mem_reverse.mp ha)).1
      (h a (List.mem_reverse.mp ha)).2)

theorem recordedRollbackActions_fresh_delete (op_type : OperationType)
    (op_id account_id : String) (targets : List String) :
    ∀ a ∈ recordedRollbackActions op_type op_id account_id targets,
      a.executed = false ∧ a.action_type = "delete" := by
  intro a ha
  cases op_type with
  | create =>
    simp only [recordedRollbackActions, List.mem_map] at ha
    obtain ⟨t, _, rfl⟩ := ha
    exact ⟨rfl, rfl⟩
  | update => cases ha
  | delete => cases ha
  | disable => cases ha
  | enable => cases ha

/-- C1: in `execute_provisioning`, when the connector call for target `t`
raises after every earlier target succeeded, the operation is marked
FAILED with the captured error, the exception is re-raised, and the full
connector trace is exactly: the forward calls of the earlier targets in
order, the failing call, then one compensation call per recorded
RollbackAction in reverse order of recording — every compensation is
attempted regardless of whether other compensations fail (each sits in
its own `try`), and no connector of any target after `t` is ever
invoked. -/
theorem C1_first_failure_rolls_back_in_reverse
    (beh : ConnCall → Except String Unit) (now : Nat)
    (operation : ProvisioningOperation) (calcAttrs : List (String × Ctx))
    (pre post : List String) (t e : String)
    (htargets : operation.target_systems = pre ++ t :: post)
    (hok : ∀ p ∈ pre, beh (opConnCall operation.operation_type p operation.account_id
        ((assocGet? calcAttrs p).getD [])) = .ok ())
    (hbad : beh (opConnCall operation.operation_type t operation.account_id
        ((assocGet? calcAttrs t).getD [])) = .error e) :
    (execute_provisioning beh now operation calcAttrs).operation.status = .failed
    ∧ (execute_provisioning beh now operation calcAttrs).operation.error_message = some e
    ∧ (execute_provisioning beh now operation calcAttrs).outcome = .error e
    ∧ (execute_provisioning beh now operation calcAttrs).calls
        = pre.map (fun p => opConnCall operation.operation_type p operation.account_id
            ((assocGet? calcAttrs p).getD []))
          ++ [opConnCall operation.operation_type t operation.account_id
                ((assocGet? calcAttrs t).getD [])]
          ++ (recordedRollbackActions operation.operation_type operation.id
                operation.account_id pre).reverse.map
              (fun a => ConnCall.deleteAccount a.target_system a.data_account_id) := by
  have hloop : provisionLoop beh operation.operation_type operation.id operation.account_id
      calcAttrs operation.target_systems [] []
      = (.error e,
         recordedRollbackActions operation.operation_type operation.id operation.account_id pre,
         pre.map (fun p => opConnCall operation.operation_type p operation.account_id
            ((assocGet? calcAttrs p).getD []))
          ++ [opConnCall operation.operation_type t operation.account_id
                ((assocGet? calcAttrs t).getD [])]) := by
    rw [htargets,
      provisionLoop_ok_prefix beh operation.operation_type operation.id operation.account_id
        calcAttrs pre (t :: post) [] [] hok,
      provisionLoop_cons_fail beh operation.operation_type operation.id operation.account_id
        calcAttrs t post _ _ e hbad]
    simp
  simp only [execute_provisioning, hloop]
  refine ⟨trivial, trivial, trivial, ?_⟩
  rw [execute_rollback_fresh_delete_trace beh now _
    (recordedRollbackActions_fresh_delete operation.operation_type operation.id
      operation.account_id pre)]

/-- Connector behaviour for the C1 witness: target `B` is unreachable,
everything else succeeds. -/
def behC1 : ConnCall → Except String Unit := fun c =>
  match c with
  | .createAccount "B" _ _ => .error "B unreachable"
  | _ => .ok ()

/-- CREATE operation over targets `[A, B, C]` for the C1 witness. -/
def opC1 : ProvisioningOperation :=
  { id := "op-2", operation_type := .create, account_id := "acc-7",
    status := .pending, target_systems := ["A", "B", "C"],
    calculated_attributes := none, error_message := none,
    updated_at := 0, completed_at := none }

/-- C1 witness: with targets `[A, B, C]` and `B` failing after `A`
succeeded, the operation ends FAILED, the trace is exactly
`create A, create B, delete A` — the compensation for `A` ran and `C` was
never invoked. -/
theorem C1_first_failure_rolls_back_in_reverse_witness :
    behC1 (ConnCall.createAccount "A" "acc-7" []) = .ok ()
    ∧ behC1 (ConnCall.createAccount "B" "acc-7" []) = .error "B unreachable"
    ∧ (execute_provisioning behC1 9 opC1 []).operation.status = .failed
    ∧ (execute_provisioning behC1 9 opC1 []).operation.error_message = some "B unreachable"
    ∧ (execute_provisioning behC1 9 opC1 []).calls
        = [ConnCall.createAccount "A" "acc-7" [], ConnCall.createAccount "B" "acc-7" [],
           ConnCall.deleteAccount "A" "acc-7"] := by
  have h := C1_first_failure_rolls_back_in_reverse behC1 9 opC1 [] ["A"] ["C"]
    "B" "B unreachable" rfl
    (by intro p hp; rw [List.mem_singleton] at hp; subst hp; rfl) rfl
  exact ⟨rfl, rfl, h.1, h.2.1, Eq.trans h.2.2.2 (by rfl)⟩

/-- C2 counterexample: an operation already in the terminal status
SUCCESS is found in the store; `continue_after_approval` does not reject
it — it re-runs `execute_provisioning`, invoking the LDAP connector
again.  The stored calculated attributes are used as-is. -/
def opC2 : ProvisioningOperation :=
  { id := "op-1", operation_type := .create, account_id := "acc-1",
    status := .success, target_systems := ["LDAP"],
    calculated_attributes := some [("LDAP", [("uid", Value.vStr "jdoe")])],
    error_message := none, updated_at := 0, completed_at := some 0 }

/-- Operation store for the C2 counterexample. -/
def storeC2 : String → Option ProvisioningOperation :=
  fun i => if i == "op-1" then some opC2 else none

/-- Connector behaviour that accepts every call (C2/C9 witnesses). -/
def behOkAll : ConnCall → Except String Unit := fun _ => .ok ()

/-- C2 counterexample: the claim says a call on an operation already in a
terminal status is rejected and re-executes nothing; in the code
`continue_after_approval` checks only existence, so on the SUCCESS
operation `op-1` it re-enters provisioning and the connector is invoked
again. -/
theorem C2_counterexample_terminal_operation_reexecuted :
    (storeC2 "op-1").map (fun o => o.status) = some OperationStatus.success
    ∧ (continue_after_approval storeC2 behOkAll 5 "op-1").map (fun r => r.calls)
        = .ok [ConnCall.createAccount "LDAP" "acc-1" [("uid", Value.vStr "jdoe")]] :=
  ⟨rfl, rfl⟩

/-- C2 amended: `continue_after_approval` rejects (raises `ValueError`)
only when the operation id is not found; any found operation — whatever
its status, terminal included — is re-executed through
`execute_provisioning` with the operation's stored (frozen)
`calculated_attributes`, which are never recomputed. -/
theorem C2_continue_rejects_only_missing_operations
    (store store2 : String → Option ProvisioningOperation)
    (beh : ConnCall → Except String Unit) (now : Nat) (operation_id : String)
    (op : ProvisioningOperation) (ca : List (String × Ctx))
    (hnone : store2 operation_id = none)
    (hfound : store operation_id = some op)
    (hca : op.calculated_attributes = some ca) :
    continue_after_approval store2 beh now operation_id
      = .error ("Operation " ++ operation_id ++ " not found")
    ∧ continue_after_approval store beh now operation_id
      = .ok (execute_provisioning beh now op ca) := by
  constructor <;> simp [continue_after_approval, hnone, hfound, hca]

/-- C2 witness: the amended behaviour at the concrete store of the
counterexample. -/
theorem C2_continue_rejects_only_missing_operations_witness :
    storeC2 "op-1" = some opC2
    ∧ opC2.calculated_attributes = some [("LDAP", [("uid", Value.vStr "jdoe")])]
    ∧ continue_after_approval (fun _ => none) behOkAll 5 "op-1"
        = .error "Operation op-1 not found"
    ∧ continue_after_approval storeC2 behOkAll 5 "op-1"
        = .ok (execute_provisioning behOkAll 5 opC2 [("LDAP", [("uid", Value.vStr "jdoe")])]) := by
  have h := C2_continue_rejects_only_missing_operations storeC2 (fun _ => none)
    behOkAll 5 "op-1" opC2 [("LDAP", [("uid", Value.vStr "jdoe")])] rfl rfl rfl
  exact ⟨rfl, rfl, Eq.trans h.1 (by rfl), h.2⟩

theorem rollbackStep_idem (beh : ConnCall → Except String Unit) (now1 now2 : Nat)
    (a : RollbackAction) :
    (rollbackStep beh now2 (rollbackStep beh now1 a).fst).snd
      = if (rollbackStep beh now1 a).fst.executed then []
        else (rollbackStep beh now1 a).snd := by
  by_cases h : a.executed
  · simp [rollbackStep, h]
  · cases hc : rollbackConnCall a with
    | none => simp [rollbackStep, h, hc]
    | some c =>
      cases hb : beh c with
      | ok v => simp [rollbackStep, h, hc, hb]
      | error e2 => simp [rollbackStep, h, hc, hb]

/-- C9: `_execute_rollback` skips every action whose `executed` flag is
already set (first conjunct: no call, no change), marks each action whose
connector call succeeded as executed with a timestamp (second conjunct),
and therefore a second run over the action list left by a first run only
re-attempts the actions whose call failed — it issues no connector call
for any action the first run completed (third conjunct: the second trace
is empty at every position where the first run marked the action
executed). -/
theorem C9_compensation_at_most_once (beh : ConnCall → Except String Unit)
    (now1 now2 : Nat) (actions : List RollbackAction) :
    (∀ a : RollbackAction, a.executed = true → rollbackStep beh now1 a = (a, []))
    ∧ (∀ (a : RollbackAction) (c : ConnCall), a.executed = false →
        rollbackConnCall a = some c → beh c = .ok () →
        (rollbackStep beh now1 a).fst.executed = true
        ∧ (rollbackStep beh now1 a).fst.executed_at = some now1)
    ∧ (execute_rollback beh now2 (execute_rollback beh now1 actions).fst).snd
        = (actions.reverse.map (fun a =>
            if (rollbackStep beh now1 a).fst.executed then []
            else (rollbackStep beh now1 a).snd)).flatten := by
  refine ⟨?_, ?_, ?_⟩
  · intro a h
    simp [rollbackStep, h]
  · intro a c h1 h2 h3
    constructor <;> simp [rollbackStep, h1, h2, h3]
  · simp only [execute_rollback]
    rw [← List.map_reverse, List.map_map]
    have hp : ((fun b => (rollbackStep beh now2 b).snd)
          ∘ fun a => (rollbackStep beh now1 a).fst)
        = fun a => if (rollbackStep beh now1 a).fst.executed then []
            else (rollbackStep beh now1 a).snd := by
      funext a
      exact rollbackStep_idem beh now1 now2 a
    rw [hp]

/-- A not-yet-executed `delete` rollback action (C9 witness). -/
def actFresh : RollbackAction := mkRollbackAction "op-2" "A" "acc-7"

/-- An already-executed rollback action (C9 witness). -/
def actDone : RollbackAction := { mkRollbackAction "op-2" "LDAP" "acc-1" with executed := true }

/-- C9 witness: the executed action is skipped untouched, the fresh
action is marked executed with the timestamp after its call succeeds, and
a second `_execute_rollback` run over the updated list makes no connector
call at all. -/
theorem C9_compensation_at_most_once_witness :
    rollbackStep behOkAll 0 actDone = (actDone, [])
    ∧ (rollbackStep behOkAll 0 actFresh).fst.executed = true
    ∧ (rollbackStep behOkAll 0 actFresh).fst.executed_at = some 0
    ∧ (execute_rollback behOkAll 1 (execute_rollback behOkAll 0 [actFresh, actDone]).fst).snd
        = [] := by
  have h := C9_compensation_at_most_once behOkAll 0 1 [actFresh, actDone]
  exact ⟨h.1 actDone rfl,
    (h.2.1 actFresh (ConnCall.deleteAccount "A" "acc-7") rfl rfl rfl).1,
    (h.2.1 actFresh (ConnCall.deleteAccount "A" "acc-7") rfl rfl rfl).2,
    Eq.trans h.2.2 (by rfl)⟩

/-! ## Approval workflow service (`workflow_service.py`) -/

/-- `ApprovalStatus` from `app/models/workflow.py`. -/
inductive ApprovalStatus where
  | pending | approved | rejected | expired | cancelled

/-- `WorkflowInstance` restricted to the fields `record_decision`
reads. -/
structure WorkflowInstanceRec where
  id : String
  operation_id : String
  status : ApprovalStatus
  current_level : Int
  total_levels : Int

/-- The `ApprovalDecision` record constructed by `record_decision`
(lines 232-237). -/
structure ApprovalDecisionRec where
  approval_level_id : String
  approver_id : String
  decision : ApprovalStatus
  comments : Option String

/-- The dict returned by `record_decision` (lines 247-275). -/
structure DecisionOutcome where
  workflow_complete : Bool
  status : Option ApprovalStatus
  next_level : Option Int
  message : String

/-- `WorkflowService.record_decision` (lines 221-275) with the instance
lookup (`get_instance`) and the level-completeness check
(`_is_level_complete`) passed explicitly.  The function never writes the
instance back (the Python code mutates nothing), so the instance is
returned untouched as the first component; the decision record and the
outcome dict are the other components.  There is no terminal-status
check anywhere. -/
def record_decision (get_instance : String → WorkflowInstanceRec)
    (is_level_complete : String → Int → Bool)
    (instance_id approver_id : String) (decision : ApprovalStatus)
    (comments : Option String) :
    WorkflowInstanceRec × ApprovalDecisionRec × DecisionOutcome :=
  let inst := get_instance instance_id
  let decision_record : ApprovalDecisionRec :=
    { approval_level_id := "level-" ++ toString inst.current_level,
      approver_id := approver_id, decision := decision, comments := comments }
  let outcome : DecisionOutcome :=
    match decision with
    | .approved =>
      if is_level_complete instance_id inst.current_level then
        if inst.current_level ≥ inst.total_levels then
          { workflow_complete := true, status := some .approved, next_level := none,
            message := "Toutes les approbations obtenues" }
        else
          { workflow_complete := false, status := none,
            next_level := some (inst.current_level + 1),
            message := "Niveau " ++ toString inst.current_level
              ++ " approuve, passage au niveau suivant" }
      else
        { workflow_complete := false, status := none, next_level := none,
          message := "Decision enregistree, en attente d\x27autres approbations" }
    | .rejected =>
      { workflow_complete := true, status := some .rejected, next_level := none,
        message := "Rejete par " ++ approver_id ++ ": "
          ++ (match comments with | some s => s | none => "None") }
    | _ =>
      { workflow_complete := false, status := none, next_level := none,
        message := "Decision enregistree, en attente d\x27autres approbations" }
  (inst, decision_record, outcome)

/-- Terminal (REJECTED) workflow instance for the C8 counterexample. -/
def wfTerminal : WorkflowInstanceRec :=
  { id := "wf-1", operation_id := "op-1", status := .rejected,
    current_level := 1, total_levels := 1 }

/-- Instance lookup for the C8 counterexample. -/
def getInstanceC8 : String → WorkflowInstanceRec := fun _ => wfTerminal

/-- Level-completeness check for the C8 counterexample (the source stub
`_is_level_complete` returns `True`). -/
def levelCompleteC8 : String → Int → Bool := fun _ _ => true

/-- C8 counterexample: on an instance already terminal (REJECTED) the
claim says `record_decision` is rejected and no workflow-complete result
can trigger the Orchestrator; the code performs no status check, so the
approval is processed and a workflow-complete APPROVED result is
returned. -/
theorem C8_counterexample_terminal_instance_still_processed :
    wfTerminal.status = ApprovalStatus.rejected
    ∧ (record_decision getInstanceC8 levelCompleteC8 "wf-1" "alice"
        .approved none).2.2.workflow_complete = true
    ∧ (record_decision getInstanceC8 levelCompleteC8 "wf-1" "alice"
        .approved none).2.2.status = some ApprovalStatus.approved :=
  ⟨rfl, rfl, rfl⟩

/-- C8 amended: `record_decision` never writes the instance back, so
`current_level` (and `status`) are unchanged by every call — in
particular `current_level` never decreases; but the function performs no
terminal-status check: its decision record and outcome are computed
identically whatever the instance's status, so calls on a
REJECTED/EXPIRED/CANCELLED instance are processed exactly like calls on
a pending one instead of being rejected. -/
theorem C8_record_decision_status_blind_and_never_mutates
    (get_instance : String → WorkflowInstanceRec)
    (is_level_complete : String → Int → Bool)
    (instance_id approver_id : String) (decision : ApprovalStatus)
    (comments : Option String) (s : ApprovalStatus) :
    (record_decision get_instance is_level_complete instance_id approver_id
        decision comments).1 = get_instance instance_id
    ∧ (record_decision (fun x => { get_instance x with status := s }) is_level_complete
          instance_id approver_id decision comments).2
      = (record_decision get_instance is_level_complete instance_id approver_id
          decision comments).2 :=
  ⟨rfl, rfl⟩

/-! ## Email-token approval (`api/workflow.py`, `email_service.py`,
`core/memory_store.py`) -/

/-- A workflow entry of `memory_store.workflows` (`core/memory_store.py`
lines 170-188), restricted to the fields the email-approval path
reads. -/
structure WorkflowEntry where
  id : String
  operation_id : Option String
  status : String
  approve_token : Option String
  reject_token : Option String
  decided_at : Option Nat
  decided_by : Option String

/-- The outcome dict of `approve_by_token`. -/
structure TokenResult where
  success : Bool
  error : Option String
  workflow_id : String

/-- Modelled from the spec: `WorkflowService.approve_by_token` is invoked
by the approve-by-email endpoint (`api/workflow.py` line 267) but its
implementation is not among the sources (only the caller and the token
fields persisted in `memory_store.workflows` are).  Per the spec, one
opaque token is minted per (instance, action) pair, a token is bound to
its specific instance and action, reuse must fail, and invalidation on
first use is atomic with the decision.  The model looks the workflow up,
requires it to be still pending and the presented token to equal the
stored token of the requested action, and on success atomically records
the decision and invalidates both tokens. -/
def approve_by_token (workflows : String → Option WorkflowEntry)
    (workflow_id token action : String) (now : Nat) :
    (String → Option WorkflowEntry) × TokenResult :=
  match workflows workflow_id with
  | none =>
    (workflows,
     { success := false, error := some "Workflow introuvable", workflow_id := workflow_id })
  | some wf =>
    if wf.status == "pending" then
      match (if action == "approve" then wf.approve_token else wf.reject_token) with
      | some tk =>
        if tk == token then
          let wf2 := { wf with
            status := if action == "approve" then "approved" else "rejected",
            decided_at := some now,
            approve_token := none, reject_token := none }
          (fun x => if x == workflow_id then some wf2 else workflows x,
           { success := true, error := none, workflow_id := workflow_id })
        else
          (workflows,
           { success := false, error := some "Token invalide", workflow_id := workflow_id })
      | none =>
        (workflows,
         { success := false, error := some "Token invalide", workflow_id := workflow_id })
    else
      (workflows,
       { success := false, error := some "Workflow deja traite", workflow_id := workflow_id })

/-- Observable outcome of one hit on the approve-by-email endpoint: the
HTTP success/error page, the operation ids passed to
`continue_after_approval`, the workflow store afterwards, and the result
of the continuation when one ran. -/
structure EmailApprovalOutcome where
  http_ok : Bool
  continue_invocations : List String
  workflows : String → Option WorkflowEntry
  op_result : Option (Except String ExecResult)

/-- `approve_workflow_by_email` (`api/workflow.py` lines 245-295):
validate the action parameter, resolve the token through
`approve_by_token`, and only when the resolution succeeded and the
action is `approve` look the workflow up (`memory_store.get_workflow`)
and call `continue_after_approval` on its operation id (an exception
from the continuation is caught and only logged; the page is still the
success page). -/
def approve_workflow_by_email (workflows : String → Option WorkflowEntry)
    (op_store : String → Option ProvisioningOperation)
    (beh : ConnCall → Except String Unit) (now : Nat)
    (token workflow_id action : String) : EmailApprovalOutcome :=
  if action != "approve" && action != "reject" then
    { http_ok := false, continue_invocations := [], workflows := workflows, op_result := none }
  else
    let res := approve_by_token workflows workflow_id token action now
    if res.snd.success then
      if action == "approve" then
        match res.fst workflow_id with
        | some wf =>
          (match wf.operation_id with
           | some op_id =>
             { http_ok := true, continue_invocations := [op_id],
               workflows := res.fst,
               op_result := some (continue_after_approval op_store beh now op_id) }
           | none =>
             { http_ok := true, continue_invocations := [],
               workflows := res.fst, op_result := none })
        | none =>
          { http_ok := true, continue_invocations := [],
            workflows := res.fst, op_result := none }
      else
        { http_ok := true, continue_invocations := [],
          workflows := res.fst, op_result := none }
    else
      { http_ok := false, continue_invocations := [], workflows := res.fst, op_result := none }

/-- C6: an email approval token is single-use and bound to its workflow
instance and action.  Resolving the approve token of a pending workflow
succeeds once (first conjunct); resolving the same token a second time
against the store the first hit left behind fails and passes no
operation to `continue_after_approval` (second and third conjuncts);
presenting the token with a different workflow instance fails (fourth
and fifth conjuncts), as does presenting it with the reject action on
its own workflow (last two conjuncts). -/
theorem C6_email_token_single_use_and_bound
    (workflows : String → Option WorkflowEntry)
    (op_store : String → Option ProvisioningOperation)
    (beh : ConnCall → Except String Unit) (now1 now2 : Nat)
    (wid other_id token tok2 : String) (wf wfo : WorkflowEntry)
    (hwf : workflows wid = some wf)
    (hpend : wf.status = "pending")
    (happ : wf.approve_token = some token)
    (hrej : wf.reject_token = some tok2)
    (hne : tok2 ≠ token)
    (hother : workflows other_id = some wfo)
    (hotok : wfo.approve_token ≠ some token) :
    (approve_workflow_by_email workflows op_store beh now1 token wid "approve").http_ok = true
    ∧ (approve_workflow_by_email
        (approve_workflow_by_email workflows op_store beh now1 token wid "approve").workflows
        op_store beh now2 token wid "approve").http_ok = false
    ∧ (approve_workflow_by_email
        (approve_workflow_by_email workflows op_store beh now1 token wid "approve").workflows
        op_store beh now2 token wid "approve").continue_invocations = []
    ∧ (approve_workflow_by_email workflows op_store beh now1 token other_id "approve").http_ok = false
    ∧ (approve_workflow_by_email workflows op_store beh now1 token other_id "approve").continue_invocations = []
    ∧ (approve_workflow_by_email workflows op_store beh now1 token wid "reject").http_ok = false
    ∧ (approve_workflow_by_email workflows op_store beh now1 token wid "reject").continue_invocations = [] := by
  have hres : approve_by_token workflows wid token "approve" now1
      = (fun x => if x == wid then
            some { wf with
                   status := "approved", decided_at := some now1,
                   approve_token := none, reject_token := none }
          else workflows x,
         { success := true, error := none, workflow_id := wid }) := by
    simp [approve_by_token, hwf, hpend, happ]
  have hfirst : ∀ P : EmailApprovalOutcome → Prop,
      (∀ oid, P { http_ok := true
                  continue_invocations := [oid]
                  workflows := (approve_by_token workflows wid token "approve" now1).fst
                  op_result := some (continue_after_approval op_store beh now1 oid) }) →
      P { http_ok := true
          continue_invocations := []
          workflows := (approve_by_token workflows wid token "approve" now1).fst
          op_result := none } →
      P (approve_workflow_by_email workflows op_store beh now1 token wid "approve") := by
    intro P hsome hnone
    cases hoid : wf.operation_id with
    | some oid =>
      simpa [approve_workflow_by_email, hres, hoid] using hsome oid
    | none =>
      simpa [approve_workflow_by_email, hres, hoid] using hnone
  have hsecond : ∀ now2 : Nat,
      approve_by_token (approve_by_token workflows wid token "approve" now1).fst
        wid token "approve" now2
      = ((approve_by_token workflows wid token "approve" now1).fst,
         { success := false, error := some "Workflow deja traite", workflow_id := wid }) := by
    intro n
    rw [hres]
    simp [approve_by_token]
  refine ⟨?_, ?_, ?_, ?_, ?_, ?_, ?_⟩
  · exact hfirst (fun o => o.http_ok = true) (fun _ => rfl) rfl
  · refine hfirst (fun o => (approve_workflow_by_email o.workflows op_store beh now2
        token wid "approve").http_ok = false) (fun _ => ?_) ?_ <;>
      simp [approve_workflow_by_email, hsecond now2]
  · refine hfirst (fun o => (approve_workflow_by_email o.workflows op_store beh now2
        token wid "approve").continue_invocations = []) (fun _ => ?_) ?_ <;>
      simp [approve_workflow_by_email, hsecond now2]
  · by_cases hs : wfo.status == "pending"
    · cases hv : wfo.approve_token with
      | none => simp [approve_workflow_by_email, approve_by_token, hother, hs, hv]
      | some tk =>
        have htk : (tk == token) = false := by
          rw [beq_eq_false_iff_ne]
          intro h
          exact hotok (hv.trans (by rw [h]))
        simp [approve_workflow_by_email, approve_by_token, hother, hs, hv, htk]
    · simp [approve_workflow_by_email, approve_by_token, hother, hs]
  · by_cases hs : wfo.status == "pending"
    · cases hv : wfo.approve_token with
      | none => simp [approve_workflow_by_email, approve_by_token, hother, hs, hv]
      | some tk =>
        have htk : (tk == token) = false := by
          rw [beq_eq_false_iff_ne]
          intro h
          exact hotok (hv.trans (by rw [h]))
        simp [approve_workflow_by_email, approve_by_token, hother, hs, hv, htk]
    · simp [approve_workflow_by_email, approve_by_token, hother, hs]
  · have htk : (tok2 == token) = false := beq_eq_false_iff_ne.mpr hne
    simp [approve_workflow_by_email, approve_by_token, hwf, hpend, hrej, htk]
  · have htk : (tok2 == token) = false := beq_eq_false_iff_ne.mpr hne
    simp [approve_workflow_by_email, approve_by_token, hwf, hpend, hrej, htk]

/-- Pending workflow with both tokens for the C6 witness. -/
def wfC6 : WorkflowEntry :=
  { id := "wf-9", operation_id := some "op-1", status := "pending",
    approve_token := some "tokA", reject_token := some "tokR",
    decided_at := none, decided_by := none }

/-- A second, unrelated pending workflow for the C6 witness. -/
def wfOtherC6 : WorkflowEntry :=
  { id := "wf-8", operation_id := none, status := "pending",
    approve_token := some "tokX", reject_token := some "tokY",
    decided_at := none, decided_by := none }

/-- Workflow store for the C6 witness. -/
def workflowsC6 : String → Option WorkflowEntry :=
  fun x => if x == "wf-9" then some wfC6 else if x == "wf-8" then some wfOtherC6 else none

/-- C6 witness: the single-use/binding guarantees at a concrete store:
the approve token of `wf-9` resolves once, fails on reuse without a
continuation call, fails on workflow `wf-8`, and fails with the reject
action. -/
theorem C6_email_token_single_use_and_bound_witness :
    (approve_workflow_by_email workflowsC6 storeC2 behOkAll 0 "tokA" "wf-9" "approve").http_ok = true
    ∧ (approve_workflow_by_email
        (approve_workflow_by_email workflowsC6 storeC2 behOkAll 0 "tokA" "wf-9" "approve").workflows
        storeC2 behOkAll 1 "tokA" "wf-9" "approve").http_ok = false
    ∧ (approve_workflow_by_email
        (approve_workflow_by_email workflowsC6 storeC2 behOkAll 0 "tokA" "wf-9" "approve").workflows
        storeC2 behOkAll 1 "tokA" "wf-9" "approve").continue_invocations = []
    ∧ (approve_workflow_by_email workflowsC6 storeC2 behOkAll 0 "tokA" "wf-8" "approve").http_ok = false
    ∧ (approve_workflow_by_email workflowsC6 storeC2 behOkAll 0 "tokA" "wf-9" "reject").http_ok = false := by
  have h := C6_email_token_single_use_and_bound workflowsC6 storeC2 behOkAll 0 1
    "wf-9" "wf-8" "tokA" "tokR" wfC6 wfOtherC6 rfl rfl rfl rfl
    (by decide) rfl (by decide)
  exact ⟨h.1, h.2.1, h.2.2.1, h.2.2.2.1, h.2.2.2.2.2.1⟩

/-! ## Reconciliation service (`reconciliation_service.py`) -/

/-- `Discrepancy` (`reconciliation_service.py` lines 31-42). -/
structure Discrepancy where
  id : String
  job_id : String
  account_id : String
  target_system : String
  discrepancy_type : String
  midpoint_value : Option Ctx
  target_value : Option Ctx
  recommendation : String
  resolved : Bool
  resolved_at : Option Nat

/-- One external write of the resolution step: a connector
create/update or a MidPoint (hub) update. -/
inductive ResolutionCall where
  | connectorCreate (target account_id : String) (attrs : Option Ctx)
  | connectorUpdate (target account_id : String) (attrs : Option Ctx)
  | midpointUpdate (account_id : String) (attrs : Option Ctx)

/-- The external write `resolve_discrepancies` issues for one
discrepancy under the given action (lines 271-293): `use_midpoint`
creates or updates through the target connector depending on the
discrepancy type, `use_target` writes back to MidPoint, `ignore` (and
any unknown action) writes nothing. -/
def resolutionCall (action : String) (d : Discrepancy) : Option ResolutionCall :=
  if action == "use_midpoint" then
    if d.discrepancy_type == "missing_in_target" then
      some (.connectorCreate d.target_system d.account_id d.midpoint_value)
    else if d.discrepancy_type == "attribute_mismatch" then
      some (.connectorUpdate d.target_system d.account_id d.midpoint_value)
    else none
  else if action == "use_target" then some (.midpointUpdate d.account_id d.target_value)
  else none

/-- One iteration of the loop of `resolve_discrepancies` (lines
269-303): issue the action write (if any) and, when nothing raised, mark
the discrepancy resolved with a timestamp; a raised write leaves the
flag unchanged and records the error.  The `resolved` flag is never
consulted. -/
def resolveStep (behR : ResolutionCall → Except String Unit) (now : Nat)
    (action : String) (d : Discrepancy) :
    Discrepancy × List ResolutionCall × Option String :=
  match resolutionCall action d with
  | none => ({ d with resolved := true, resolved_at := some now }, [], none)
  | some c =>
    match behR c with
    | .ok _ => ({ d with resolved := true, resolved_at := some now }, [c], none)
    | .error e => (d, [c], some e)

/-- The selection applied by `resolve_discrepancies` (lines 266-267):
`if discrepancy_ids:` treats `None` and the empty list as falsy, so only
a non-empty id list filters. -/
def discSelected (discrepancy_ids : Option (List String)) (d : Discrepancy) : Bool :=
  match discrepancy_ids with
  | none => true
  | some ids => if ids.isEmpty then true else ids.contains d.id

/-- `ReconciliationService.resolve_discrepancies` (lines 254-316) over
the job discrepancy list (the source loads it through
`get_discrepancies`): the selected discrepancies are processed in order;
the Python loop mutates the very objects, so the updated list keeps
unselected entries untouched in place.  Returns the updated list, the
trace of external writes, the `resolved` count and the recorded
errors. -/
def resolve_discrepancies (behR : ResolutionCall → Except String Unit) (now : Nat)
    (discrepancies : List Discrepancy) (action : String)
    (discrepancy_ids : Option (List String)) :
    List Discrepancy × List ResolutionCall × Nat × List String :=
  (discrepancies.map (fun d =>
      if discSelected discrepancy_ids d then (resolveStep behR now action d).1 else d),
   ((discrepancies.filter (discSelected discrepancy_ids)).map
      (fun d => (resolveStep behR now action d).2.1)).flatten,
   (discrepancies.filter (discSelected discrepancy_ids)).countP
      (fun d => ((resolveStep behR now action d).2.2).isNone),
   (discrepancies.filter (discSelected discrepancy_ids)).filterMap
      (fun d => (resolveStep behR now action d).2.2))

/-- An already-resolved `missing_in_target` discrepancy (C7
counterexample). -/
def discResolved : Discrepancy :=
  { id := "disc-0", job_id := "job-1", account_id := "acc-1", target_system := "LDAP",
    discrepancy_type := "missing_in_target", midpoint_value := some [],
    target_value := none, recommendation := "Creer le compte dans le systeme cible",
    resolved := true, resolved_at := some 0 }

/-- Resolution backend that accepts every write (C7). -/
def behRecon : ResolutionCall → Except String Unit := fun _ => .ok ()

/-- C7 counterexample: the claim says re-invoking resolution on a
discrepancy already marked resolved performs no further mutation; the
code never reads the `resolved` flag, so with the mutating action
`use_midpoint` the connector create is issued again for the
already-resolved discrepancy. -/
theorem C7_counterexample_resolved_discrepancy_rewritten :
    discResolved.resolved = true
    ∧ (resolve_discrepancies behRecon 3 [discResolved] "use_midpoint" none).2.1
        = [ResolutionCall.connectorCreate "LDAP" "acc-1" (some [])] :=
  ⟨rfl, rfl⟩

/-- C7 amended: `resolve_discrepancies` never consults the `resolved`
flag — whenever the action maps a discrepancy to an external write, that
write is issued even when the discrepancy is already resolved (first
conjunct); the action `ignore` issues no connector or hub write on any
invocation (second conjunct), marks every selected discrepancy resolved
with a refreshed timestamp (third conjunct), and a second `ignore` run
over the updated list again issues no write while the selected entries
stay resolved (fourth conjunct) — so the idempotence the spec promises
holds for `ignore` only because `ignore` never writes. -/
theorem C7_resolution_idempotent_only_for_ignore
    (behR : ResolutionCall → Except String Unit) (now now2 : Nat)
    (discrepancies : List Discrepancy) (ids : Option (List String))
    (action : String) (d : Discrepancy) (c : ResolutionCall)
    (hc : resolutionCall action d = some c) :
    (resolveStep behR now action d).2.1 = [c]
    ∧ (resolve_discrepancies behR now discrepancies "ignore" ids).2.1 = []
    ∧ (resolve_discrepancies behR now discrepancies "ignore" ids).1
        = discrepancies.map (fun x => if discSelected ids x
            then { x with resolved := true, resolved_at := some now } else x)
    ∧ (resolve_discrepancies behR now2
        (resolve_discrepancies behR now discrepancies "ignore" ids).1 "ignore" ids).2.1
      = [] := by
  have hstep : ∀ (n : Nat) (x : Discrepancy),
      resolveStep behR n "ignore" x
        = ({ x with resolved := true, resolved_at := some n }, [], none) := fun _ _ => rfl
  have hflat : ∀ (n : Nat) (l : List Discrepancy),
      ((l.map (fun x => (resolveStep behR n "ignore" x).2.1)).flatten
        = ([] : List ResolutionCall)) := by
    intro n l
    induction l with
    | nil => rfl
    | cons x l ih => simp [hstep, ih]
  refine ⟨?_, ?_, ?_, ?_⟩
  · cases hb : behR c <;> simp [resolveStep, hc, hb]
  · exact hflat now _
  · rfl
  · exact hflat now2 _

/-- A not-yet-resolved discrepancy (C7 witness). -/
def discFresh : Discrepancy :=
  { id := "disc-1", job_id := "job-1", account_id := "acc-2", target_system := "SQL",
    discrepancy_type := "missing_in_target", midpoint_value := some [],
    target_value := none, recommendation := "Creer le compte dans le systeme cible",
    resolved := false, resolved_at := none }

/-- C7 witness: the amended behaviour at concrete inputs — the mutating
write fires for the resolved discrepancy, and two `ignore` runs over
`disc-1` issue no write while leaving it resolved. -/
theorem C7_resolution_idempotent_only_for_ignore_witness :
    resolutionCall "use_midpoint" discResolved
      = some (ResolutionCall.connectorCreate "LDAP" "acc-1" (some []))
    ∧ (resolveStep behRecon 3 "use_midpoint" discResolved).2.1
        = [ResolutionCall.connectorCreate "LDAP" "acc-1" (some [])]
    ∧ (resolve_discrepancies behRecon 3 [discFresh] "ignore" (some ["disc-1"])).2.1 = []
    ∧ (resolve_discrepancies behRecon 3 [discFresh] "ignore" (some ["disc-1"])).1
        = [{ discFresh with resolved := true, resolved_at := some 3 }]
    ∧ (resolve_discrepancies behRecon 4
        (resolve_discrepancies behRecon 3 [discFresh] "ignore" (some ["disc-1"])).1
        "ignore" (some ["disc-1"])).2.1 = [] := by
  have h := C7_resolution_idempotent_only_for_ignore behRecon 3 4 [discFresh]
    (some ["disc-1"]) "use_midpoint" discResolved
    (ResolutionCall.connectorCreate "LDAP" "acc-1" (some [])) rfl
  exact ⟨rfl, h.1, h.2.1, Eq.trans h.2.2.1 (by rfl), h.2.2.2⟩

/-! ## Audit log store (`core/memory_store.py`) -/

/-- The fields of the `log_entry` dict that `add_audit_log` reads
(`core/memory_store.py` lines 330-359); `none` embeds an absent key, and
`log_type` embeds the `"type"` key. -/
structure AuditLogInput where
  target_systems : List String
  target_system : Option String
  log_type : Option String
  action : Option String
  status : Option String
  account_id : Option String
  job_id : Option String
  actor : Option String

/-- A normalised in-memory audit entry (lines 348-359). -/
structure AuditLogEntry where
  id : Nat
  db_id : String
  created_at : Nat
  event_type : String
  action : String
  account_id : String
  actor : String
  target_system : String
  severity : String
  details : AuditLogInput

/-- The normalised entry `add_audit_log` builds (lines 332-359), with
`uuid.uuid4()` and `datetime.utcnow()` passed explicitly and `id`
computed from the cache length before insertion. -/
def normalize_log_entry (log_entry : AuditLogInput) (db_id : String) (now : Nat)
    (prior_len : Nat) : AuditLogEntry :=
  let target_system := match log_entry.target_systems with
    | t :: _ => t
    | [] => log_entry.target_system.getD ""
  let log_type := log_entry.log_type.getD "info"
  let action := log_entry.action.getD ""
  let event_type := if action == "" then log_type else log_type ++ "_" ++ action
  let status := log_entry.status.getD ""
  let severity := if status == "error" || status == "failed" then "error"
    else if status == "warning" then "warning" else "info"
  { id := prior_len + 1, db_id := db_id, created_at := now,
    event_type := event_type,
    action := log_entry.action.getD "-",
    account_id := (match log_entry.account_id with
      | some v => v
      | none => log_entry.job_id.getD ""),
    actor := log_entry.actor.getD "system",
    target_system := target_system, severity := severity,
    details := log_entry }

/-- `MemoryStore.add_audit_log` (lines 330-389): build the normalised
entry, insert it at index 0 of the cache list, and truncate the list to
its first 1000 entries (the Python code truncates only when the length
exceeds 1000 — the same function); the PostgreSQL write is fire and
forget and does not touch the in-memory list. -/
def add_audit_log (log_entry : AuditLogInput) (db_id : String) (now : Nat)
    (audit_logs : List AuditLogEntry) : List AuditLogEntry :=
  (normalize_log_entry log_entry db_id now audit_logs.length :: audit_logs).take 1000

/-- C10: for every input entry and every prior list, `add_audit_log`
inserts exactly one normalised entry at the front and truncates to the
first 1000 entries: the result is the new entry followed by the first
999 old entries, and its length never exceeds 1000. -/
theorem C10_audit_log_bounded_most_recent_first
    (log_entry : AuditLogInput) (db_id : String) (now : Nat)
    (audit_logs : List AuditLogEntry) :
    add_audit_log log_entry db_id now audit_logs
      = normalize_log_entry log_entry db_id now audit_logs.length :: audit_logs.take 999
    ∧ (add_audit_log log_entry db_id now audit_logs).length ≤ 1000 := by
  have h1000 : (1000 : Nat) = 999 + 1 := rfl
  constructor
  · rw [add_audit_log, h1000, List.take_succ_cons]
  · rw [add_audit_log, List.length_take]
    exact min_le_left _ _

end Gateway
